import Mathlib

/-
  Verification development for the `debugger` repository.

  Shallow embedding of the C++ sources:
    - include/debugger_engine.h, src/unnamed/part_005 (DebuggerEngine)
    - src/unnamed/part_004 (Disassembler)
    - src/src/disassembler/elf_parser.cpp (ElfParser)

  Machine words (the C `long` returned by ptrace PEEKTEXT) are modelled as
  natural numbers; the bit operations `(w & ~0xFF) | b` of the source are
  written in their arithmetic form `w / 256 * 256 + b` (equal on the byte
  values `b < 256` the source stores there).  Target-process memory is a
  byte map `Nat → Nat`; ptrace reads and writes a pointer-width (8-byte)
  word at a time, little-endian, exactly as the source loops do.
-/

namespace Debugger

/-! ## Data model (include/debugger_engine.h, disassembler.h) -/

/-- enum class Architecture (disassembler.h). -/
inductive Architecture where
  | X86
  | X86_64
  | ARM
  | ARM64
  | UNKNOWN
deriving DecidableEq

/-- struct Instruction (disassembler.h). -/
structure Instruction where
  address : Nat
  mnemonic : String
  operands : String
  bytes : List Nat
  size : Nat
  is_jump : Bool
  is_call : Bool
  is_return : Bool
  target_address : Nat
deriving DecidableEq

/-- struct Function (disassembler.h). -/
structure Function where
  start_address : Nat
  end_address : Nat
  name : String
  instructions : List Instruction
  cross_references : List Nat
deriving DecidableEq

/-- A default-constructed Instruction (all integral fields zero-initialised,
strings and vectors empty), used where the C++ code reads
`instructions.back()` of a non-empty vector. -/
def emptyInstruction : Instruction :=
  { address := 0, mnemonic := "", operands := "", bytes := [], size := 0,
    is_jump := false, is_call := false, is_return := false, target_address := 0 }

/-- A default-constructed Function, the value of `current_function` before
any function has been opened (`Function current_function;`). -/
def emptyFunction : Function :=
  { start_address := 0, end_address := 0, name := "", instructions := [],
    cross_references := [] }

/-- enum class BreakpointType (debugger_engine.h). -/
inductive BreakpointType where
  | SOFTWARE
  | HARDWARE
  | CONDITIONAL
deriving DecidableEq

/-- enum class DebuggerState (debugger_engine.h). -/
inductive DebuggerState where
  | NOT_RUNNING
  | RUNNING
  | PAUSED
  | STOPPED
  | ERROR
deriving DecidableEq

/-- struct Breakpoint (debugger_engine.h); the `condition_func`
std::function field is never read by the modelled operations and is
omitted. -/
structure Breakpoint where
  address : Nat
  type : BreakpointType
  enabled : Bool
  condition : String
  original_byte : Nat
  name : String
  hit_count : Nat
deriving DecidableEq

/-- The private state of class DebuggerEngine that the modelled operations
touch: `target_pid`, `current_state`, the breakpoint map and `last_error`.
The std::map breakpoint table is modelled as a partial map on addresses. -/
structure EngineState where
  target_pid : Int
  current_state : DebuggerState
  breakpoints : Nat → Option Breakpoint
  last_error : String

/-- The traced process as the ptrace syscalls see it: a byte map and the
instruction pointer. -/
structure TraceeState where
  mem : Nat → Nat
  ip : Nat

/-! ## ptrace word access

`ptrace(PTRACE_PEEKTEXT, pid, addr)` returns the 8 bytes at `addr` as one
little-endian `long`; `PTRACE_POKETEXT` writes all 8 bytes of its word
argument.  (x86-64 Linux: `sizeof(long) = 8`.) -/

/-- The word `mem[addr] + mem[addr+1]*2^8 + ... + mem[addr+7]*2^56` read by
PTRACE_PEEKTEXT. -/
def peekWord (mem : Nat → Nat) (addr : Nat) : Nat :=
  (List.range 8).foldr (fun j acc => mem (addr + j) + 256 * acc) 0

/-- The byte map after PTRACE_POKETEXT writes `word` at `addr`: byte `addr+j`
becomes the `j`-th little-endian byte of `word` for `j < 8`. -/
def pokeWord (mem : Nat → Nat) (addr : Nat) (word : Nat) : Nat → Nat :=
  fun x => if addr ≤ x ∧ x < addr + 8 then word / 256 ^ (x - addr) % 256 else mem x

/-! ## DebuggerEngine operations (src/unnamed/part_005)

ptrace itself can fail; where an operation's only ptrace failure modes are
external (attach refused, resume refused) they are passed in as a boolean
oracle argument.  Peeks and pokes of an attached process are modelled on
their success path, which is the path all the claims below quantify over. -/

/-- DebuggerEngine::insert_software_breakpoint: read the word at `address`,
record its low byte as `original_byte`, write back the word with the low
byte replaced by the INT3 opcode 0xCC, and store the table entry. -/
def insert_software_breakpoint (e : EngineState) (t : TraceeState) (address : Nat) :
    Bool × EngineState × TraceeState :=
  let data := peekWord t.mem address
  let bp : Breakpoint :=
    { address := address, type := BreakpointType.SOFTWARE, enabled := true,
      condition := "", original_byte := data % 256, name := "", hit_count := 0 }
  -- new_data = (data & ~0xFF) | 0xCC
  let new_data := data / 256 * 256 + 0xCC
  (true,
   { e with breakpoints := fun a => if a = address then some bp else e.breakpoints a },
   { t with mem := pokeWord t.mem address new_data })

/-- DebuggerEngine::remove_software_breakpoint: fail if the address is not
in the table; otherwise read the current word, write back the word with the
low byte restored to `original_byte`, and erase the table entry. -/
def remove_software_breakpoint (e : EngineState) (t : TraceeState) (address : Nat) :
    Bool × EngineState × TraceeState :=
  match e.breakpoints address with
  | none => (false, { e with last_error := "Breakpoint not found" }, t)
  | some bp =>
    let data := peekWord t.mem address
    -- new_data = (data & ~0xFF) | original_byte
    let new_data := data / 256 * 256 + bp.original_byte
    (true,
     { e with breakpoints := fun a => if a = address then none else e.breakpoints a },
     { t with mem := pokeWord t.mem address new_data })

/-- DebuggerEngine::add_breakpoint. -/
def add_breakpoint (e : EngineState) (t : TraceeState) (address : Nat)
    (type : BreakpointType) : Bool × EngineState × TraceeState :=
  if e.target_pid = -1 then
    (false, { e with last_error := "No process attached" }, t)
  else if type = BreakpointType.SOFTWARE then
    insert_software_breakpoint e t address
  else
    (false, { e with last_error := "Hardware breakpoints not implemented" }, t)

/-- DebuggerEngine::remove_breakpoint delegates to
remove_software_breakpoint. -/
def remove_breakpoint (e : EngineState) (t : TraceeState) (address : Nat) :
    Bool × EngineState × TraceeState :=
  remove_software_breakpoint e t address

/-- DebuggerEngine::attach_to_process: if PTRACE_ATTACH fails, set
`last_error` and return false touching nothing else; on success record the
pid and transition to PAUSED. -/
def attach_to_process (e : EngineState) (pid : Int) (ptrace_attach_ok : Bool) :
    Bool × EngineState :=
  if !ptrace_attach_ok then
    (false, { e with last_error := "Failed to attach to process" })
  else
    (true, { e with target_pid := pid, current_state := DebuggerState.PAUSED })

/-- DebuggerEngine::continue_execution: fail if no process is attached;
fail (state untouched) if PTRACE_CONT fails; otherwise transition to
RUNNING. -/
def continue_execution (e : EngineState) (ptrace_cont_ok : Bool) :
    Bool × EngineState :=
  if e.target_pid = -1 then
    (false, { e with last_error := "No process attached" })
  else if !ptrace_cont_ok then
    (false, { e with last_error := "Failed to continue execution" })
  else
    (true, { e with current_state := DebuggerState.RUNNING })

/-- Modelled from the spec: the effect of one PTRACE_SINGLESTEP on the
traced CPU, which is outside the repository (it is the kernel and the
hardware).  Per the spec, a single step executes exactly one instruction;
a direct call or jump transfers control to its target, any other
instruction falls through to `address + size`.  `prog` maps an address to
the instruction found there. -/
def exec_one (prog : Nat → Option Instruction) (ip : Nat) : Nat :=
  match prog ip with
  | none => ip
  | some i =>
    if (i.is_call || i.is_jump) && (i.target_address != 0) then i.target_address
    else i.address + i.size

/-- DebuggerEngine::step_into: fail if no process is attached, otherwise
PTRACE_SINGLESTEP (one instruction executes) and wait. -/
def step_into (e : EngineState) (t : TraceeState) (prog : Nat → Option Instruction) :
    Bool × EngineState × TraceeState :=
  if e.target_pid = -1 then
    (false, { e with last_error := "No process attached" }, t)
  else
    (true, e, { t with ip := exec_one prog t.ip })

/-- DebuggerEngine::step_over: the source implements it as a plain single
step ("For now, implement as single step"). -/
def step_over (e : EngineState) (t : TraceeState) (prog : Nat → Option Instruction) :
    Bool × EngineState × TraceeState :=
  step_into e t prog

/-- The word the inner loop of DebuggerEngine::write_memory packs from up
to 8 data bytes: `word |= data[i+j] << (j*8)`, written arithmetically
(little-endian digits, bytes below 256). -/
def packWord : List Nat → Nat
  | [] => 0
  | b :: rest => b + 256 * packWord rest

/-- The outer loop of DebuggerEngine::write_memory: for each 8-byte chunk
of `data`, pack a word (bytes past the end of `data` stay zero) and
PTRACE_POKETEXT it — the full word, including the zero bytes, is written. -/
def writeWords (mem : Nat → Nat) (addr : Nat) (data : List Nat) : Nat → Nat :=
  match data with
  | [] => mem
  | b :: rest =>
    writeWords (pokeWord mem addr (packWord ((b :: rest).take 8))) (addr + 8)
      ((b :: rest).drop 8)
termination_by data.length
decreasing_by simp [List.length_drop]; omega

/-- DebuggerEngine::write_memory. -/
def write_memory (e : EngineState) (t : TraceeState) (address : Nat)
    (data : List Nat) : Bool × EngineState × TraceeState :=
  if e.target_pid = -1 then
    (false, { e with last_error := "No process attached" }, t)
  else
    (true, e, { t with mem := writeWords t.mem address data })

/-! ## Disassembler (src/unnamed/part_004)

String searching: `std::string::find(sub) != npos` is substring
containment; `std::string::substr` and the explicit scan loops are
modelled on the character list of the Lean string. -/

/-- Does `needle` occur at the very start of `hay`? -/
def startsWithChars : List Char → List Char → Bool
  | [], _ => true
  | _ :: _, [] => false
  | a :: as, b :: bs => a == b && startsWithChars as bs

/-- Index of the first occurrence of `needle` in `hay`
(std::string::find), none when absent (npos). -/
def findSubIdx : List Char → List Char → Option Nat
  | hay, needle =>
    match hay with
    | [] => if needle.isEmpty then some 0 else none
    | _ :: rest =>
      if startsWithChars needle hay then some 0
      else (findSubIdx rest needle).map (· + 1)

/-- `hay.find(needle) != std::string::npos`. -/
def strContains (hay needle : String) : Bool :=
  (findSubIdx hay.data needle.data).isSome

/-- std::isxdigit on an ASCII character. -/
def isxdigit (c : Char) : Bool :=
  ('0' ≤ c && c ≤ '9') || ('a' ≤ c && c ≤ 'f') || ('A' ≤ c && c ≤ 'F')

/-- Value of one hex digit. -/
def hexDigitVal (c : Char) : Nat :=
  if '0' ≤ c && c ≤ '9' then c.toNat - 48
  else if 'a' ≤ c && c ≤ 'f' then c.toNat - 87
  else if 'A' ≤ c && c ≤ 'F' then c.toNat - 55
  else 0

/-- std::stoull(hex_str, nullptr, 16) on a nonempty all-hex-digit string:
the value, or 0 when it overflows unsigned long long (the thrown
out_of_range is caught and 0 returned). -/
def stoullHex (cs : List Char) : Nat :=
  let v := cs.foldl (fun acc c => 16 * acc + hexDigitVal c) 0
  if v < 2 ^ 64 then v else 0

/-- Disassembler::extract_target_address: find "0x" in the operand text,
take the maximal run of hex digits after it, and parse it; 0 when there is
no "0x" or no digit follows. -/
def extract_target_address (insn : Instruction) : Nat :=
  let ops := insn.operands.data
  match findSubIdx ops ['0', 'x'] with
  | none => 0
  | some pos =>
    let hex_str := ops.drop (pos + 2)
    let digits := hex_str.takeWhile isxdigit
    if digits.length > 0 then stoullHex digits else 0

/-- The fields of a Capstone `cs_insn` (with detail) that
Disassembler::convert_cs_instruction reads. -/
structure CsInsn where
  address : Nat
  mnemonic : String
  op_str : String
  size : Nat
  bytes : List Nat
  has_detail : Bool
  groups : List Nat
deriving DecidableEq

/-- Capstone group id CS_GRP_JUMP. -/
def CS_GRP_JUMP : Nat := 1
/-- Capstone group id CS_GRP_CALL. -/
def CS_GRP_CALL : Nat := 2
/-- Capstone group id CS_GRP_RET. -/
def CS_GRP_RET : Nat := 3

/-- Disassembler::convert_cs_instruction: copy address, mnemonic, operand
text, size and bytes; derive the control-flow flags from the detail group
list; resolve `target_address` only for jumps and calls. -/
def convert_cs_instruction (insn : CsInsn) : Instruction :=
  let base : Instruction :=
    { address := insn.address, mnemonic := insn.mnemonic,
      operands := insn.op_str, bytes := insn.bytes, size := insn.size,
      is_jump := false, is_call := false, is_return := false,
      target_address := 0 }
  if insn.has_detail then
    let withFlags :=
      { base with
        is_jump := insn.groups.contains CS_GRP_JUMP,
        is_call := insn.groups.contains CS_GRP_CALL,
        is_return := insn.groups.contains CS_GRP_RET }
    if withFlags.is_jump || withFlags.is_call then
      { withFlags with target_address := extract_target_address withFlags }
    else withFlags
  else base

/-- Modelled from the spec: `cs_disasm` decoding one instruction is the
external Capstone library, not repository code.  Per spec section 4.2 the
decoder decodes sequentially from offset 0 and an undecodable byte sequence
ends the stream.  The modelled x86/x86-64 decode table contains the
single-byte NOP 0x90 (mnemonic "nop", no operands, member of no
control-flow group); every other byte sequence, and every byte sequence on
the other architectures, is treated as undecodable. -/
def decodeOne (arch : Architecture) (addr : Nat) : List Nat → Option CsInsn
  | [] => none
  | b :: _ =>
    if b = 0x90 ∧ (arch = Architecture.X86 ∨ arch = Architecture.X86_64) then
      some { address := addr, mnemonic := "nop", op_str := "", size := 1,
             bytes := [0x90], has_detail := true, groups := [] }
    else none

/-- The CsInsn the modelled decoder produces for a NOP at address `a`. -/
def nopCsInsn (a : Nat) : CsInsn :=
  { address := a, mnemonic := "nop", op_str := "", size := 1,
    bytes := [0x90], has_detail := true, groups := [] }

/-- The Instruction `convert_cs_instruction` builds from a decoded NOP. -/
def nopInstruction (a : Nat) : Instruction :=
  { address := a, mnemonic := "nop", operands := "", bytes := [0x90],
    size := 1, is_jump := false, is_call := false, is_return := false,
    target_address := 0 }

/-- Modelled from the spec: the `cs_disasm` loop — decode sequentially,
each instruction advancing the cursor by its size, stopping at the first
undecodable position and returning what was decoded so far. -/
def cs_disasm_model (arch : Architecture) : Nat → List Nat → List CsInsn
  | _, [] => []
  | addr, b :: rest =>
    match decodeOne arch addr (b :: rest) with
    | none => []
    | some insn =>
      insn :: cs_disasm_model arch (addr + insn.size) (rest.drop (insn.size - 1))
termination_by _ bytes => bytes.length
decreasing_by simp [List.length_drop]; omega

/-- The private state of class Disassembler that decoding reads. -/
structure Disassembler where
  initialized : Bool
  current_arch : Architecture

/-- Disassembler::disassemble: empty result unless initialised and the
buffer is non-null and non-empty; otherwise convert every instruction
Capstone decodes. -/
def disassemble (d : Disassembler) (data : List Nat) (base_address : Nat) :
    List Instruction :=
  if !d.initialized || data.isEmpty then []
  else (cs_disasm_model d.current_arch base_address data).map convert_cs_instruction

/-- Disassembler::is_function_start: architecture-specific prologue
idioms, by mnemonic and operand-substring tests. -/
def is_function_start (arch : Architecture) (insn : Instruction) : Bool :=
  match arch with
  | Architecture.X86 | Architecture.X86_64 =>
    (insn.mnemonic == "push" && strContains insn.operands "bp") ||
    (insn.mnemonic == "push" && strContains insn.operands "rbp") ||
    (insn.mnemonic == "sub" && strContains insn.operands "sp")
  | Architecture.ARM | Architecture.ARM64 =>
    (insn.mnemonic == "push" || insn.mnemonic == "stp") &&
    (strContains insn.operands "lr" || strContains insn.operands "x30")
  | Architecture.UNKNOWN => false

/-- Disassembler::is_function_end. -/
def is_function_end (insn : Instruction) : Bool :=
  insn.is_return

/-- The loop body of Disassembler::analyze_functions, carrying the
accumulated `functions`, the `in_function` flag and `current_function`. -/
def analyzeLoop (arch : Architecture) :
    List Instruction → List Function → Bool → Function →
    List Function × Bool × Function
  | [], fs, in_function, cur => (fs, in_function, cur)
  | insn :: rest, fs, in_function, cur =>
    let opened : Bool × Function :=
      if !in_function && is_function_start arch insn then
        (true,
         { start_address := insn.address, end_address := 0,
           name := "sub_" ++ toString insn.address, instructions := [],
           cross_references := [] })
      else (in_function, cur)
    if opened.1 then
      let cur2 := { opened.2 with instructions := opened.2.instructions ++ [insn] }
      if is_function_end insn then
        analyzeLoop arch rest
          (fs ++ [{ cur2 with end_address := insn.address + insn.size }]) false
          { cur2 with end_address := insn.address + insn.size }
      else
        analyzeLoop arch rest fs true cur2
    else
      analyzeLoop arch rest fs false opened.2

/-- Disassembler::analyze_functions: empty input gives no functions; a
single pass opens a function at a recognised prologue while not inside
one, appends every instruction while inside, closes at each `is_return`
instruction with `end_address = address + size`, and closes a function
still open at the end of the stream at the last instruction's end. -/
def analyze_functions (arch : Architecture) (instructions : List Instruction) :
    List Function :=
  match instructions with
  | [] => []
  | _ :: _ =>
    let r := analyzeLoop arch instructions [] false emptyFunction
    if r.2.1 then
      r.1 ++ [{ r.2.2 with
                end_address := (instructions.getLastD emptyInstruction).address +
                  (instructions.getLastD emptyInstruction).size }]
    else r.1

/-- std::isprint in the default "C" locale: ASCII 0x20 to 0x7E. -/
def isprintByte (b : Nat) : Bool :=
  decide (32 ≤ b) && decide (b ≤ 126)

/-- The loop of Disassembler::extract_strings with the `current_string`
accumulator: a printable non-NUL byte extends the current run; any other
byte ends it, emitting it if its length is at least 4.  When the input
ends, `current_string` is discarded without being emitted (the source has
no flush after the loop). -/
def extractGo : List Nat → String → List String
  | [], _ => []
  | b :: rest, cur =>
    if isprintByte b && !(b == 0) then
      extractGo rest (cur.push (Char.ofNat b))
    else
      (if 4 ≤ cur.length then [cur] else []) ++ extractGo rest ""

/-- Disassembler::extract_strings. -/
def extract_strings (data : List Nat) : List String :=
  extractGo data ""

/-- The std::string built from a run of byte values (each printable ASCII
in every use below), for stating what extract_strings emits. -/
def mkAsciiString (r : List Nat) : String :=
  String.mk (r.map Char.ofNat)

/-! ## ElfParser (src/src/disassembler/elf_parser.cpp) -/

/-- ElfParser::load_file, on a file modelled as `none` (cannot be opened)
or `some bytes` (its content).  `file.read(elf_header, 64)` makes
`gcount` the smaller of 64 and the file length; the header check fails
when fewer than 16 bytes were read or the first four bytes are not
0x7F 'E' 'L' 'F'.  Returns the success flag and the `last_error` string
(cleared on entry, so empty on success). -/
def load_file (file : Option (List Nat)) (filename : String) : Bool × String :=
  match file with
  | none => (false, "Failed to open file: " ++ filename)
  | some bytes =>
    let gcount := min 64 bytes.length
    if gcount < 16 ||
       !(bytes.getD 0 0 == 0x7f) || !(bytes.getD 1 0 == 69) ||
       !(bytes.getD 2 0 == 76) || !(bytes.getD 3 0 == 70) then
      (false, "Not a valid ELF file")
    else
      (true, "")

/-- A file starts with the four ELF magic bytes 0x7F 'E' 'L' 'F' (false
for a file that cannot be opened or is shorter than four bytes). -/
def hasElfMagic (file : Option (List Nat)) : Bool :=
  match file with
  | none => false
  | some bytes =>
    decide (4 ≤ bytes.length) &&
    (bytes.getD 0 0 == 0x7f) && (bytes.getD 1 0 == 69) &&
    (bytes.getD 2 0 == 76) && (bytes.getD 3 0 == 70)

/-! ## Concrete sample states, used by the closed witness theorems -/

/-- An engine with a process attached (pid 5) and paused, empty breakpoint
table. -/
def samplePaused : EngineState :=
  { target_pid := 5, current_state := DebuggerState.PAUSED,
    breakpoints := fun _ => none, last_error := "" }

/-- A freshly constructed engine: no pid, NOT_RUNNING. -/
def sampleNotRunning : EngineState :=
  { target_pid := -1, current_state := DebuggerState.NOT_RUNNING,
    breakpoints := fun _ => none, last_error := "" }

/-- A tracee whose byte at 100 is 7 and at 101 is 9, zero elsewhere. -/
def sampleTracee : TraceeState :=
  { mem := fun a => if a = 100 then 7 else if a = 101 then 9 else 0, ip := 0 }

/-- A tracee whose byte at 1001 is 1, zero elsewhere. -/
def sampleWriteTracee : TraceeState :=
  { mem := fun a => if a = 1001 then 1 else 0, ip := 0 }

/-- A direct 5-byte `call 0x200` instruction at address 0x100. -/
def sampleCallInstruction : Instruction :=
  { address := 256, mnemonic := "call", operands := "0x200",
    bytes := [232, 251, 0, 0, 0], size := 5, is_jump := false, is_call := true,
    is_return := false, target_address := 512 }

/-- A program with only the sample call instruction, at address 0x100. -/
def sampleCallProgram : Nat → Option Instruction :=
  fun a => if a = 256 then some sampleCallInstruction else none

/-- A tracee stopped with the instruction pointer at the sample call. -/
def sampleCallTracee : TraceeState := { mem := fun _ => 0, ip := 256 }

/-- An x86-64 `push rbp` prologue instruction at 0x1000. -/
def samplePrologue : Instruction :=
  { address := 4096, mnemonic := "push", operands := "rbp", bytes := [85],
    size := 1, is_jump := false, is_call := false, is_return := false,
    target_address := 0 }

/-- A 3-byte `mov rbp, rsp` body instruction at 0x1001. -/
def sampleBody : Instruction :=
  { address := 4097, mnemonic := "mov", operands := "rbp, rsp",
    bytes := [72, 137, 229], size := 3, is_jump := false, is_call := false,
    is_return := false, target_address := 0 }

/-- A `ret` instruction at 0x1004. -/
def sampleReturn : Instruction :=
  { address := 4100, mnemonic := "ret", operands := "", bytes := [195],
    size := 1, is_jump := false, is_call := false, is_return := true,
    target_address := 0 }

/-! ## Helper lemmas on word access -/

theorem peekWord_def (mem : Nat → Nat) (a : Nat) :
    peekWord mem a =
      mem (a + 0) + 256 * (mem (a + 1) + 256 * (mem (a + 2) + 256 * (mem (a + 3) +
        256 * (mem (a + 4) + 256 * (mem (a + 5) + 256 * (mem (a + 6) +
        256 * (mem (a + 7) + 256 * 0))))))) := rfl

/-- The low byte of a peeked word is the byte at the given address, mod 256. -/
theorem peekWord_mod (mem : Nat → Nat) (a : Nat) :
    peekWord mem a % 256 = mem a % 256 := by
  rw [peekWord_def, Nat.add_mul_mod_self_left, Nat.add_zero]

/-- The byte a poke leaves at the poked address itself. -/
theorem pokeWord_self (mem : Nat → Nat) (a w : Nat) :
    pokeWord mem a w a = w % 256 := by
  simp [pokeWord]

/-- Replacing the low byte of a word, then reading the low byte back. -/
theorem setLow_mod (w b : Nat) : (w / 256 * 256 + b) % 256 = b % 256 := by
  rw [add_comm, Nat.add_mul_mod_self_right]

/-! ## Claim theorems -/

/-- C1: inserting a software breakpoint at any address A (recording the low
byte of the word at A as `original_byte` and patching in 0xCC) and then
removing it leaves the byte stored at A equal to its pre-insertion value,
and A is no longer in the breakpoint table.  Hypotheses: a process is
attached (`target_pid ≠ -1`, otherwise `add_breakpoint` refuses), and the
byte at A is a byte value. -/
theorem c1_insert_remove_software_breakpoint (e : EngineState) (t : TraceeState)
    (A : Nat) (hpid : e.target_pid ≠ -1) (hbyte : t.mem A < 256) :
    (remove_breakpoint (add_breakpoint e t A BreakpointType.SOFTWARE).2.1
        (add_breakpoint e t A BreakpointType.SOFTWARE).2.2 A).1 = true ∧
    (remove_breakpoint (add_breakpoint e t A BreakpointType.SOFTWARE).2.1
        (add_breakpoint e t A BreakpointType.SOFTWARE).2.2 A).2.2.mem A = t.mem A ∧
    (remove_breakpoint (add_breakpoint e t A BreakpointType.SOFTWARE).2.1
        (add_breakpoint e t A BreakpointType.SOFTWARE).2.2 A).2.1.breakpoints A =
      none := by
  simp only [add_breakpoint, if_neg hpid, reduceIte, remove_breakpoint,
    remove_software_breakpoint, insert_software_breakpoint, if_pos rfl]
  refine ⟨trivial, ?_, by simp⟩
  simp only [pokeWord_self, setLow_mod, peekWord_mod]
  omega

/-- Witness for C1 at the sample states and address 100. -/
theorem c1_witness :
    samplePaused.target_pid ≠ -1 ∧ sampleTracee.mem 100 < 256 ∧
    ((remove_breakpoint
        (add_breakpoint samplePaused sampleTracee 100 BreakpointType.SOFTWARE).2.1
        (add_breakpoint samplePaused sampleTracee 100 BreakpointType.SOFTWARE).2.2
        100).1 = true ∧
     (remove_breakpoint
        (add_breakpoint samplePaused sampleTracee 100 BreakpointType.SOFTWARE).2.1
        (add_breakpoint samplePaused sampleTracee 100 BreakpointType.SOFTWARE).2.2
        100).2.2.mem 100 = sampleTracee.mem 100 ∧
     (remove_breakpoint
        (add_breakpoint samplePaused sampleTracee 100 BreakpointType.SOFTWARE).2.1
        (add_breakpoint samplePaused sampleTracee 100 BreakpointType.SOFTWARE).2.2
        100).2.1.breakpoints 100 = none) :=
  ⟨by decide, by decide,
   c1_insert_remove_software_breakpoint samplePaused sampleTracee 100
     (by decide) (by decide)⟩

/-- C10: adding a software breakpoint twice in a row at the same address A
succeeds both times; the second call reads the already-patched word, so the
table entry's `original_byte` becomes the trap opcode 0xCC, and a
subsequent `remove_breakpoint A` restores 0xCC instead of the byte that was
at A before the first insertion. -/
theorem c10_double_insert_clobbers_original_byte (e : EngineState)
    (t : TraceeState) (A : Nat) (hpid : e.target_pid ≠ -1)
    (hne : t.mem A ≠ 204) :
    (add_breakpoint (add_breakpoint e t A BreakpointType.SOFTWARE).2.1
        (add_breakpoint e t A BreakpointType.SOFTWARE).2.2 A
        BreakpointType.SOFTWARE).1 = true ∧
    (add_breakpoint (add_breakpoint e t A BreakpointType.SOFTWARE).2.1
        (add_breakpoint e t A BreakpointType.SOFTWARE).2.2 A
        BreakpointType.SOFTWARE).2.1.breakpoints A =
      some { address := A, type := BreakpointType.SOFTWARE, enabled := true,
             condition := "", original_byte := 204, name := "",
             hit_count := 0 } ∧
    (remove_breakpoint
        (add_breakpoint (add_breakpoint e t A BreakpointType.SOFTWARE).2.1
          (add_breakpoint e t A BreakpointType.SOFTWARE).2.2 A
          BreakpointType.SOFTWARE).2.1
        (add_breakpoint (add_breakpoint e t A BreakpointType.SOFTWARE).2.1
          (add_breakpoint e t A BreakpointType.SOFTWARE).2.2 A
          BreakpointType.SOFTWARE).2.2 A).2.2.mem A = 204 ∧
    (remove_breakpoint
        (add_breakpoint (add_breakpoint e t A BreakpointType.SOFTWARE).2.1
          (add_breakpoint e t A BreakpointType.SOFTWARE).2.2 A
          BreakpointType.SOFTWARE).2.1
        (add_breakpoint (add_breakpoint e t A BreakpointType.SOFTWARE).2.1
          (add_breakpoint e t A BreakpointType.SOFTWARE).2.2 A
          BreakpointType.SOFTWARE).2.2 A).2.2.mem A ≠ t.mem A := by
  simp only [add_breakpoint, if_neg hpid, reduceIte, remove_breakpoint,
    remove_software_breakpoint, insert_software_breakpoint, if_pos rfl]
  have hlow : ∀ mem a, peekWord (pokeWord mem a (peekWord mem a / 256 * 256 + 204))
      a % 256 = 204 := by
    intro mem a
    rw [peekWord_mod, pokeWord_self, setLow_mod]
  refine ⟨trivial, by simp [hlow], ?_, ?_⟩ <;>
    (simp only [pokeWord_self, setLow_mod, peekWord_mod, hlow]; try omega)

/-- Witness for C10 at the sample states and address 100 (original byte 7). -/
theorem c10_witness :
    samplePaused.target_pid ≠ -1 ∧ sampleTracee.mem 100 ≠ 204 ∧
    ((add_breakpoint
        (add_breakpoint samplePaused sampleTracee 100 BreakpointType.SOFTWARE).2.1
        (add_breakpoint samplePaused sampleTracee 100 BreakpointType.SOFTWARE).2.2
        100 BreakpointType.SOFTWARE).1 = true ∧
     (add_breakpoint
        (add_breakpoint samplePaused sampleTracee 100 BreakpointType.SOFTWARE).2.1
        (add_breakpoint samplePaused sampleTracee 100 BreakpointType.SOFTWARE).2.2
        100 BreakpointType.SOFTWARE).2.1.breakpoints 100 =
       some { address := 100, type := BreakpointType.SOFTWARE, enabled := true,
              condition := "", original_byte := 204, name := "",
              hit_count := 0 } ∧
     (remove_breakpoint
        (add_breakpoint
          (add_breakpoint samplePaused sampleTracee 100 BreakpointType.SOFTWARE).2.1
          (add_breakpoint samplePaused sampleTracee 100 BreakpointType.SOFTWARE).2.2
          100 BreakpointType.SOFTWARE).2.1
        (add_breakpoint
          (add_breakpoint samplePaused sampleTracee 100 BreakpointType.SOFTWARE).2.1
          (add_breakpoint samplePaused sampleTracee 100 BreakpointType.SOFTWARE).2.2
          100 BreakpointType.SOFTWARE).2.2 100).2.2.mem 100 = 204 ∧
     (remove_breakpoint
        (add_breakpoint
          (add_breakpoint samplePaused sampleTracee 100 BreakpointType.SOFTWARE).2.1
          (add_breakpoint samplePaused sampleTracee 100 BreakpointType.SOFTWARE).2.2
          100 BreakpointType.SOFTWARE).2.1
        (add_breakpoint
          (add_breakpoint samplePaused sampleTracee 100 BreakpointType.SOFTWARE).2.1
          (add_breakpoint samplePaused sampleTracee 100 BreakpointType.SOFTWARE).2.2
          100 BreakpointType.SOFTWARE).2.2 100).2.2.mem 100 ≠
       sampleTracee.mem 100) :=
  ⟨by decide, by decide,
   c10_double_insert_clobbers_original_byte samplePaused sampleTracee 100
     (by decide) (by decide)⟩

/-- C8: attaching to a pid that cannot be traced (PTRACE_ATTACH refused)
returns failure with a retrievable error and leaves a fresh engine exactly
as it was: state NOT_RUNNING and no target pid recorded. -/
theorem c8_attach_failure_preserves_state (e : EngineState) (pid : Int)
    (h1 : e.current_state = DebuggerState.NOT_RUNNING)
    (h2 : e.target_pid = -1) :
    (attach_to_process e pid false).1 = false ∧
    (attach_to_process e pid false).2.current_state = DebuggerState.NOT_RUNNING ∧
    (attach_to_process e pid false).2.target_pid = -1 ∧
    (attach_to_process e pid false).2.last_error ≠ "" := by
  simp [attach_to_process, h1, h2]

/-- Witness for C8 on a fresh engine and pid 12345. -/
theorem c8_witness :
    sampleNotRunning.current_state = DebuggerState.NOT_RUNNING ∧
    sampleNotRunning.target_pid = -1 ∧
    ((attach_to_process sampleNotRunning 12345 false).1 = false ∧
     (attach_to_process sampleNotRunning 12345 false).2.current_state =
       DebuggerState.NOT_RUNNING ∧
     (attach_to_process sampleNotRunning 12345 false).2.target_pid = -1 ∧
     (attach_to_process sampleNotRunning 12345 false).2.last_error ≠ "") :=
  ⟨by decide, by decide,
   c8_attach_failure_preserves_state sampleNotRunning 12345 (by decide) (by decide)⟩

/-- C9: `continue_execution` fails with a retrievable error and an
unchanged state whenever no process is attached (the no-process guard is
how the code enforces that the operation is only valid on a paused,
attached session); when PTRACE_CONT itself fails, `current_state` is left
unchanged (still Paused); and on success the state becomes RUNNING. -/
theorem c9_continue_execution_state_transitions (e : EngineState) (ok : Bool) :
    (e.target_pid = -1 →
      (continue_execution e ok).1 = false ∧
      (continue_execution e ok).2.last_error ≠ "" ∧
      (continue_execution e ok).2.current_state = e.current_state) ∧
    (e.target_pid ≠ -1 → ok = false →
      (continue_execution e ok).1 = false ∧
      (continue_execution e ok).2.last_error ≠ "" ∧
      (continue_execution e ok).2.current_state = e.current_state) ∧
    (e.target_pid ≠ -1 → ok = true →
      (continue_execution e ok).1 = true ∧
      (continue_execution e ok).2.current_state = DebuggerState.RUNNING) := by
  refine ⟨fun h => by simp [continue_execution, h],
    fun h hok => by simp [continue_execution, h, hok],
    fun h hok => by simp [continue_execution, h, hok]⟩

/-- Witness for C9: a failed resume on a paused engine with pid 5 leaves
the state PAUSED, and a successful one moves it to RUNNING. -/
theorem c9_witness :
    samplePaused.target_pid ≠ -1 ∧
    ((continue_execution samplePaused false).1 = false ∧
     (continue_execution samplePaused false).2.last_error ≠ "" ∧
     (continue_execution samplePaused false).2.current_state =
       samplePaused.current_state) ∧
    ((continue_execution samplePaused true).1 = true ∧
     (continue_execution samplePaused true).2.current_state =
       DebuggerState.RUNNING) :=
  ⟨by decide,
   (c9_continue_execution_state_transitions samplePaused false).2.1 (by decide) rfl,
   (c9_continue_execution_state_transitions samplePaused true).2.2 (by decide) rfl⟩

/-- C2 counter-evidence: the claim asserts `write_memory` preserves every
byte outside the requested range that shares a word with it.  The source
packs each word from the data alone (no read-modify-write), so in the
final partial word the bytes past the data are written as zero:
writing the single byte 0xAA at 1000 zeroes the byte at 1001, which held 1
before the call and lies outside the range [1000, 1001). -/
theorem c2_write_memory_zeroes_neighbour_byte :
    (write_memory samplePaused sampleWriteTracee 1000 [170]).1 = true ∧
    sampleWriteTracee.mem 1001 = 1 ∧
    (write_memory samplePaused sampleWriteTracee 1000 [170]).2.2.mem 1001 = 0 := by
  refine ⟨by norm_num [write_memory, samplePaused], by decide, ?_⟩
  norm_num [write_memory, samplePaused, writeWords, packWord, pokeWord]

/-- C3 counter-evidence: the source implements `step_over` as a bare
single step, so invoked with the instruction pointer at the sample call
instruction (address 0x100, size 5, callee at 0x200) it stops at the
callee's first instruction, 0x200, not at the claimed return address
0x100 + 5. -/
theorem c3_step_over_single_steps_into_callee :
    (step_over samplePaused sampleCallTracee sampleCallProgram).1 = true ∧
    (step_over samplePaused sampleCallTracee sampleCallProgram).2.2.ip = 512 ∧
    (step_over samplePaused sampleCallTracee sampleCallProgram).2.2.ip ≠
      sampleCallInstruction.address + sampleCallInstruction.size := by
  decide

/-- C7: for every file whose first four bytes are not 0x7F 'E' 'L' 'F' —
including files shorter than the magic and files that cannot be opened —
`load_file` returns failure and the retrievable last error is a non-empty
string. -/
theorem c7_load_file_rejects_bad_magic (file : Option (List Nat))
    (filename : String) (h : hasElfMagic file = false) :
    (load_file file filename).1 = false ∧ (load_file file filename).2 ≠ "" := by
  cases file with
  | none =>
    refine ⟨rfl, fun hc => ?_⟩
    simp only [load_file] at hc
    have hlen := congrArg String.length hc
    simp only [String.length_append] at hlen
    have h21 : ("Failed to open file: " : String).length = 21 := by decide
    have h0 : ("" : String).length = 0 := by decide
    rw [h21, h0] at hlen
    omega
  | some bytes =>
    have hfail : load_file (some bytes) filename = (false, "Not a valid ELF file") := by
      simp only [load_file]
      split
      · rfl
      · exfalso
        rename_i hcond
        simp only [hasElfMagic, Bool.and_eq_false_iff, decide_eq_false_iff_not,
          beq_eq_false_iff_ne, ne_eq] at h
        simp only [Bool.or_eq_true, decide_eq_true_eq, Bool.not_eq_true',
          beq_eq_false_iff_ne, ne_eq, not_or, not_lt, Decidable.not_not] at hcond
        have h1 : 16 ≤ min 64 bytes.length := hcond.1.1.1.1
        have h2 : bytes.getD 0 0 = 127 := hcond.1.1.1.2
        have h3 : bytes.getD 1 0 = 69 := hcond.1.1.2
        have h4 : bytes.getD 2 0 = 76 := hcond.1.2
        have h5 : bytes.getD 3 0 = 70 := hcond.2
        omega
    rw [hfail]
    exact ⟨rfl, by decide⟩

/-- Witness for C7: a 3-byte file with no ELF magic is rejected with a
non-empty error. -/
theorem c7_witness :
    hasElfMagic (some [1, 2, 3]) = false ∧
    ((load_file (some [1, 2, 3]) "sample.bin").1 = false ∧
     (load_file (some [1, 2, 3]) "sample.bin").2 ≠ "") :=
  ⟨by decide, c7_load_file_rejects_bad_magic (some [1, 2, 3]) "sample.bin" (by decide)⟩

/-! ## Lemmas on the analyze_functions loop -/

/-- One loop step while inside a function: the instruction is appended; a
return closes the function into the accumulator, otherwise the loop goes
on inside the function. -/
theorem analyzeLoop_cons_inside (arch : Architecture) (insn : Instruction)
    (rest : List Instruction) (fs : List Function) (cur : Function) :
    analyzeLoop arch (insn :: rest) fs true cur =
      (if is_function_end insn then
        analyzeLoop arch rest
          (fs ++ [{ cur with
                    instructions := cur.instructions ++ [insn],
                    end_address := insn.address + insn.size }]) false
          { cur with
            instructions := cur.instructions ++ [insn],
            end_address := insn.address + insn.size }
      else
        analyzeLoop arch rest fs true
          { cur with instructions := cur.instructions ++ [insn] }) := by
  simp [analyzeLoop]

/-- One loop step outside any function, at a recognised prologue: a fresh
function is opened, the instruction appended, and (unless the prologue is
itself a return) the loop goes on inside it. -/
theorem analyzeLoop_cons_open (arch : Architecture) (insn : Instruction)
    (rest : List Instruction) (fs : List Function) (cur : Function)
    (h : is_function_start arch insn = true) :
    analyzeLoop arch (insn :: rest) fs false cur =
      (if is_function_end insn then
        analyzeLoop arch rest
          (fs ++ [{ start_address := insn.address,
                    end_address := insn.address + insn.size,
                    name := "sub_" ++ toString insn.address,
                    instructions := [insn], cross_references := [] }]) false
          { start_address := insn.address,
            end_address := insn.address + insn.size,
            name := "sub_" ++ toString insn.address,
            instructions := [insn], cross_references := [] }
      else
        analyzeLoop arch rest fs true
          { start_address := insn.address, end_address := 0,
            name := "sub_" ++ toString insn.address,
            instructions := [insn], cross_references := [] }) := by
  simp [analyzeLoop, h]

/-- While inside a function, a stretch of non-return instructions is
appended to the current function and nothing else changes. -/
theorem analyzeLoop_no_return (arch : Architecture) (rest : List Instruction)
    (fs : List Function) (cur : Function)
    (h : ∀ m ∈ rest, m.is_return = false) :
    analyzeLoop arch rest fs true cur =
      (fs, true, { cur with instructions := cur.instructions ++ rest }) := by
  induction rest generalizing cur with
  | nil => simp [analyzeLoop]
  | cons insn rest' ih =>
    have hinsn : insn.is_return = false := h insn (List.mem_cons_self insn rest')
    have hrest : ∀ m ∈ rest', m.is_return = false :=
      fun m hm => h m (List.mem_cons_of_mem insn hm)
    rw [analyzeLoop_cons_inside, if_neg (by simp [is_function_end, hinsn]),
      ih _ hrest]
    simp

/-- While inside a function, non-return instructions followed by a return
close the current function at `return.address + return.size`. -/
theorem analyzeLoop_close (arch : Architecture) (mid : List Instruction)
    (R : Instruction) (fs : List Function) (cur : Function)
    (hmid : ∀ m ∈ mid, m.is_return = false) (hR : R.is_return = true) :
    analyzeLoop arch (mid ++ [R]) fs true cur =
      (fs ++ [{ cur with
                instructions := cur.instructions ++ (mid ++ [R]),
                end_address := R.address + R.size }],
       false,
       { cur with
         instructions := cur.instructions ++ (mid ++ [R]),
         end_address := R.address + R.size }) := by
  induction mid generalizing cur with
  | nil =>
    rw [List.nil_append, analyzeLoop_cons_inside,
      if_pos (by simp [is_function_end, hR])]
    simp [analyzeLoop]
  | cons m mid' ih =>
    have hm : m.is_return = false := hmid m (List.mem_cons_self m mid')
    have hmid' : ∀ x ∈ mid', x.is_return = false :=
      fun x hx => hmid x (List.mem_cons_of_mem m hx)
    rw [List.cons_append, analyzeLoop_cons_inside,
      if_neg (by simp [is_function_end, hm]), ih _ hmid']
    simp

/-- Unfolding of analyze_functions on a non-empty stream whose loop ends
outside any function. -/
theorem analyze_functions_cons_closed (arch : Architecture) (i : Instruction)
    (is : List Instruction)
    (h : (analyzeLoop arch (i :: is) [] false emptyFunction).2.1 = false) :
    analyze_functions arch (i :: is) =
      (analyzeLoop arch (i :: is) [] false emptyFunction).1 := by
  simp [analyze_functions, h]

/-- Unfolding of analyze_functions on a non-empty stream whose loop ends
still inside a function: it is closed at the last instruction's end. -/
theorem analyze_functions_cons_still_open (arch : Architecture)
    (i : Instruction) (is : List Instruction)
    (h : (analyzeLoop arch (i :: is) [] false emptyFunction).2.1 = true) :
    analyze_functions arch (i :: is) =
      (analyzeLoop arch (i :: is) [] false emptyFunction).1 ++
        [{ (analyzeLoop arch (i :: is) [] false emptyFunction).2.2 with
           end_address := ((i :: is).getLastD emptyInstruction).address +
             ((i :: is).getLastD emptyInstruction).size }] := by
  simp [analyze_functions, h]

/-- C4: on one recognised prologue instruction P, arbitrary non-return
instructions, and a final instruction R with `is_return` set,
`analyze_functions` returns exactly one Function, with `start_address =
P.address` and `end_address = R.address + R.size`; and on the same stream
with no return at all, the one function is closed at the last
instruction's end instead of being an error. -/
theorem c4_analyze_functions_single_function (arch : Architecture)
    (P R : Instruction) (mid : List Instruction)
    (hstart : is_function_start arch P = true)
    (hPnr : P.is_return = false)
    (hmid : ∀ m ∈ mid, m.is_return = false)
    (hR : R.is_return = true) :
    analyze_functions arch (P :: (mid ++ [R])) =
      [{ start_address := P.address, end_address := R.address + R.size,
         name := "sub_" ++ toString P.address,
         instructions := P :: (mid ++ [R]), cross_references := [] }] ∧
    analyze_functions arch (P :: mid) =
      [{ start_address := P.address,
         end_address := ((P :: mid).getLastD emptyInstruction).address +
           ((P :: mid).getLastD emptyInstruction).size,
         name := "sub_" ++ toString P.address,
         instructions := P :: mid, cross_references := [] }] := by
  constructor
  · have hloop : analyzeLoop arch (P :: (mid ++ [R])) [] false emptyFunction =
        ([{ start_address := P.address, end_address := R.address + R.size,
            name := "sub_" ++ toString P.address,
            instructions := P :: (mid ++ [R]), cross_references := [] }],
         false,
         { start_address := P.address, end_address := R.address + R.size,
           name := "sub_" ++ toString P.address,
           instructions := P :: (mid ++ [R]), cross_references := [] }) := by
      rw [analyzeLoop_cons_open arch P _ _ _ hstart,
        if_neg (by simp [is_function_end, hPnr]),
        analyzeLoop_close arch mid R _ _ hmid hR]
      simp
    rw [analyze_functions_cons_closed arch P _ (by rw [hloop]), hloop]
  · have hloop : analyzeLoop arch (P :: mid) [] false emptyFunction =
        ([], true,
         { start_address := P.address, end_address := 0,
           name := "sub_" ++ toString P.address,
           instructions := P :: mid, cross_references := [] }) := by
      rw [analyzeLoop_cons_open arch P _ _ _ hstart,
        if_neg (by simp [is_function_end, hPnr]),
        analyzeLoop_no_return arch mid _ _ hmid]
      simp
    rw [analyze_functions_cons_still_open arch P _ (by rw [hloop]), hloop]
    simp

/-- Witness for C4 on the concrete stream push rbp; mov rbp, rsp; ret. -/
theorem c4_witness :
    is_function_start Architecture.X86_64 samplePrologue = true ∧
    samplePrologue.is_return = false ∧
    (∀ m ∈ [sampleBody], m.is_return = false) ∧
    sampleReturn.is_return = true ∧
    (analyze_functions Architecture.X86_64
        (samplePrologue :: ([sampleBody] ++ [sampleReturn])) =
      [{ start_address := samplePrologue.address,
         end_address := sampleReturn.address + sampleReturn.size,
         name := "sub_" ++ toString samplePrologue.address,
         instructions := samplePrologue :: ([sampleBody] ++ [sampleReturn]),
         cross_references := [] }] ∧
     analyze_functions Architecture.X86_64 (samplePrologue :: [sampleBody]) =
      [{ start_address := samplePrologue.address,
         end_address :=
           ((samplePrologue :: [sampleBody]).getLastD emptyInstruction).address +
           ((samplePrologue :: [sampleBody]).getLastD emptyInstruction).size,
         name := "sub_" ++ toString samplePrologue.address,
         instructions := samplePrologue :: [sampleBody],
         cross_references := [] }]) :=
  ⟨by decide, by decide, by decide, by decide,
   c4_analyze_functions_single_function Architecture.X86_64 samplePrologue
     sampleReturn [sampleBody] (by decide) (by decide) (by decide) (by decide)⟩

/-! ## Lemmas on the modelled decoder -/

/-- Decoding a NOP byte consumes one byte and yields the NOP entry. -/
theorem cs_disasm_cons_nop (a : Nat) (rest : List Nat) :
    cs_disasm_model Architecture.X86_64 a (144 :: rest) =
      nopCsInsn a :: cs_disasm_model Architecture.X86_64 (a + 1) rest := by
  simp [cs_disasm_model, decodeOne, nopCsInsn]

/-- Decoding stops at an undecodable leading byte. -/
theorem cs_disasm_stops (a b : Nat) (rest : List Nat) (hb : b ≠ 144) :
    cs_disasm_model Architecture.X86_64 a (b :: rest) = [] := by
  simp [cs_disasm_model, decodeOne, hb]

/-- A run of N NOP bytes decodes to N NOP entries at consecutive
addresses, whatever follows it — nothing (end of buffer) or an
undecodable byte. -/
theorem cs_disasm_replicate_nop (N : Nat) (a : Nat) (suffix : List Nat)
    (hs : suffix = [] ∨ ∃ b rest, suffix = b :: rest ∧ b ≠ 144) :
    cs_disasm_model Architecture.X86_64 a (List.replicate N 144 ++ suffix) =
      (List.range N).map (fun k => nopCsInsn (a + k)) := by
  induction N generalizing a with
  | zero =>
    rcases hs with h | ⟨b, rest, hbr, hb⟩
    · simp [h, cs_disasm_model]
    · simp [hbr, cs_disasm_stops a b rest hb]
  | succ M ih =>
    rw [List.replicate_succ, List.cons_append, cs_disasm_cons_nop, ih (a + 1)]
    rw [List.range_succ_eq_map, List.map_cons, List.map_map]
    refine congrArg₂ _ (by simp [nopCsInsn]) ?_
    refine List.map_congr_left fun k _ => ?_
    simp only [Function.comp]
    exact congrArg nopCsInsn (by omega)

/-- Converting a decoded NOP gives a size-1 instruction with no
control-flow flags. -/
theorem convert_nop (a : Nat) :
    convert_cs_instruction (nopCsInsn a) = nopInstruction a := rfl

/-- Unfolding of disassemble for an initialised decoder on a non-empty
buffer. -/
theorem disassemble_unfold (arch : Architecture) (data : List Nat)
    (base : Nat) (h : data.isEmpty = false) :
    disassemble { initialized := true, current_arch := arch } data base =
      (cs_disasm_model arch base data).map convert_cs_instruction := by
  simp [disassemble, h]

/-- C5: disassembling N consecutive single-byte NOP encodings with the
decoder initialised for x86-64 yields exactly N instructions, each of
size 1, none flagged call, jump or return; and on a buffer where the NOPs
are followed by an undecodable byte, decoding stops there and returns
exactly the instructions decoded so far. -/
theorem c5_disassemble_nops (N base bad : Nat) (rest : List Nat)
    (hbad : bad ≠ 144) :
    (disassemble { initialized := true, current_arch := Architecture.X86_64 }
        (List.replicate N 144) base).length = N ∧
    (∀ i ∈ disassemble { initialized := true, current_arch := Architecture.X86_64 }
        (List.replicate N 144) base,
      i.size = 1 ∧ i.is_call = false ∧ i.is_jump = false ∧ i.is_return = false) ∧
    disassemble { initialized := true, current_arch := Architecture.X86_64 }
        (List.replicate N 144 ++ bad :: rest) base =
      disassemble { initialized := true, current_arch := Architecture.X86_64 }
        (List.replicate N 144) base := by
  have hsuf : ∃ b r, bad :: rest = b :: r ∧ b ≠ 144 := ⟨bad, rest, rfl, hbad⟩
  cases N with
  | zero =>
    refine ⟨by simp [disassemble], by simp [disassemble], ?_⟩
    simp [disassemble, cs_disasm_stops base bad rest hbad]
  | succ M =>
    have hne : (List.replicate (M + 1) 144).isEmpty = false := by
      simp [List.replicate_succ]
    have hr := cs_disasm_replicate_nop (M + 1) base [] (Or.inl rfl)
    rw [List.append_nil] at hr
    have h1 : disassemble { initialized := true, current_arch := Architecture.X86_64 }
        (List.replicate (M + 1) 144) base =
        (List.range (M + 1)).map (fun k => nopInstruction (base + k)) := by
      rw [disassemble_unfold _ _ _ hne, hr, List.map_map]
      exact List.map_congr_left fun k _ => convert_nop (base + k)
    have h2 : disassemble { initialized := true, current_arch := Architecture.X86_64 }
        (List.replicate (M + 1) 144 ++ bad :: rest) base =
        (List.range (M + 1)).map (fun k => nopInstruction (base + k)) := by
      rw [disassemble_unfold _ _ _ (by simp [List.replicate_succ]),
        cs_disasm_replicate_nop (M + 1) base (bad :: rest) (Or.inr hsuf),
        List.map_map]
      exact List.map_congr_left fun k _ => convert_nop (base + k)
    refine ⟨by simp [h1], ?_, by rw [h1, h2]⟩
    intro i hi
    rw [h1] at hi
    obtain ⟨k, -, rfl⟩ := List.mem_map.mp hi
    exact ⟨rfl, rfl, rfl, rfl⟩

/-- Witness for C5 with three NOPs followed by the undecodable byte 0xFF. -/
theorem c5_witness :
    (255 : Nat) ≠ 144 ∧
    ((disassemble { initialized := true, current_arch := Architecture.X86_64 }
        (List.replicate 3 144) 4096).length = 3 ∧
     (∀ i ∈ disassemble { initialized := true, current_arch := Architecture.X86_64 }
        (List.replicate 3 144) 4096,
       i.size = 1 ∧ i.is_call = false ∧ i.is_jump = false ∧ i.is_return = false) ∧
     disassemble { initialized := true, current_arch := Architecture.X86_64 }
        (List.replicate 3 144 ++ 255 :: [7, 8]) 4096 =
      disassemble { initialized := true, current_arch := Architecture.X86_64 }
        (List.replicate 3 144) 4096) :=
  ⟨by decide, c5_disassemble_nops 3 4096 255 [7, 8] (by decide)⟩

/-! ## Lemmas on extract_strings -/

theorem push_data (s : String) (c : Char) : (s.push c).data = s.data ++ [c] := rfl

theorem empty_string_data : ("" : String).data = [] := rfl

theorem mk_string_data (s : String) : String.mk s.data = s := rfl

/-- Reshaping the emitted-runs expression: the runs before the last chunk,
filtered by length, equal the head-run emission followed by the same
expression on the tail. -/
theorem emit_dropLast_eq (cs : List (List Nat)) :
    (cs.dropLast.filter (fun r => 4 ≤ r.length)).map mkAsciiString =
      (if cs.length ≤ 1 then []
       else
        (if 4 ≤ (cs.headD []).length then [mkAsciiString (cs.headD [])] else []) ++
          (cs.tail.dropLast.filter (fun r => 4 ≤ r.length)).map mkAsciiString) := by
  match cs with
  | [] => simp
  | [c] => simp
  | c :: d :: cs'' =>
    rw [if_neg (show ¬((c :: d :: cs'').length ≤ 1) from by simp)]
    simp only [List.dropLast_cons₂, List.filter_cons, List.headD_cons,
      List.tail_cons]
    by_cases hc : 4 ≤ c.length
    · simp [hc]
    · simp [hc]

/-- The extract_strings loop, with the pending run `cur`, emits the
terminated chunks of the split of the remaining input: the first chunk is
glued onto `cur`, a terminated chunk is kept when its length reaches 4,
and the final (unterminated) chunk is dropped. -/
theorem extractGo_spec (l : List Nat) (cur : String) :
    extractGo l cur =
      (if (l.splitOnP fun b => !(isprintByte b && !(b == 0))).length ≤ 1 then []
       else
        (if 4 ≤ cur.length +
            ((l.splitOnP fun b => !(isprintByte b && !(b == 0))).headD []).length
         then [String.mk (cur.data ++
            ((l.splitOnP fun b => !(isprintByte b && !(b == 0))).headD []).map
              Char.ofNat)]
         else []) ++
        ((l.splitOnP fun b => !(isprintByte b && !(b == 0))).tail.dropLast.filter
            (fun r => 4 ≤ r.length)).map mkAsciiString) := by
  induction l generalizing cur with
  | nil => simp [extractGo]
  | cons b t ih =>
    obtain ⟨c, cs', hcs⟩ := List.exists_cons_of_ne_nil
      (List.splitOnP_ne_nil (fun b => !(isprintByte b && !(b == 0))) t)
    by_cases hp : (isprintByte b && !(b == 0)) = true
    · have hpb : (!(isprintByte b && !(b == 0))) = false := by simp [hp]
      simp only [extractGo]
      rw [if_pos hp, ih (cur.push (Char.ofNat b))]
      simp only [List.splitOnP_cons, hpb, Bool.false_eq_true, if_false, hcs,
        List.modifyHead_cons, List.headD_cons, List.tail_cons, List.length_cons,
        String.length_push, push_data, List.map_cons, List.append_assoc,
        List.singleton_append]
      rw [show cur.length + 1 + c.length = cur.length + (c.length + 1) by omega]
    · have hpb : (isprintByte b && !(b == 0)) = false := by
        revert hp; cases isprintByte b && !(b == 0) <;> simp
      have hpbT : (!(isprintByte b && !(b == 0))) = true := by simp [hpb]
      simp only [extractGo]
      rw [if_neg (by simp [hpb])]
      simp only [List.splitOnP_cons, hpbT, if_true, hcs]
      rw [ih ""]
      simp only [hcs, List.length_cons, List.headD_cons, List.tail_cons,
        List.length_nil, Nat.add_zero, List.map_nil, List.append_nil,
        mk_string_data, empty_string_data, List.nil_append]
      rw [if_neg (show ¬(cs'.length + 1 + 1 ≤ 1) from by omega)]
      rw [emit_dropLast_eq (c :: cs')]
      simp only [List.length_cons, List.headD_cons, List.tail_cons]
      have h0 : ("" : String).length = 0 := rfl
      rw [h0]
      simp only [Nat.zero_add, mkAsciiString]

/-- C6 counter-evidence: a qualifying printable run that extends to the
very end of the buffer is not emitted.  On the four printable bytes
"abcd" the claim requires the output ["abcd"]; the code returns []. -/
theorem c6_trailing_run_dropped :
    extract_strings [97, 98, 99, 100] = [] ∧
    extract_strings [97, 98, 99, 100] ≠ ["abcd"] := by
  constructor
  · rfl
  · intro h
    rw [show extract_strings [97, 98, 99, 100] = [] from rfl] at h
    exact List.noConfusion h

/-- C6 as amended: extract_strings returns exactly the maximal runs of
printable non-NUL bytes of length at least 4 that are terminated by a
non-printable or NUL byte, in order of occurrence; a qualifying run cut
short by the end of the input is discarded, not emitted.  (The chunks of
`splitOnP` on the non-printable-or-NUL separator are exactly the maximal
separator-free runs in order; all but the last are terminated by a
separator, and `dropLast` removes the unterminated one.) -/
theorem c6_extract_strings_terminated_runs (data : List Nat) :
    extract_strings data =
      ((data.splitOnP fun b => !(isprintByte b && !(b == 0))).dropLast.filter
          (fun r => 4 ≤ r.length)).map mkAsciiString := by
  rw [extract_strings, extractGo_spec,
    emit_dropLast_eq (data.splitOnP fun b => !(isprintByte b && !(b == 0)))]
  have h0 : ("" : String).length = 0 := rfl
  rw [h0]
  simp only [Nat.zero_add, empty_string_data, List.nil_append, mkAsciiString]

end Debugger
